import Mathlib

/-!
Verification model of the neuralmd semantic-retrieval core.

The definitions below are a shallow embedding of the TypeScript source:
* `src/lib/embeddings/index.ts` — provider resolution and `generateEmbedding`
* `src/lib/embeddings/ollama.ts` and the OpenAI provider — per-provider
  embedding submission (truncation guard)
* `src/app/api/search/route.ts` — `POST /api/search` (semantic search with
  lexical fallback)
* `src/app/api/graph/route.ts` — `GET /api/graph` (similarity graph builder)
* `src/app/api/notes/[id]/route.ts` — `PUT` (note update / embedding refresh)
* the notes `POST` handler — note creation with embed-or-null

Modelling conventions:
* Embedding vectors are `List ℚ` (the claims under verification depend only
  on comparisons of similarity values, never on floating-point rounding).
* The pgvector cosine-distance operator `<=>` is an abstract parameter
  `dist : Vec → Vec → ℚ`; similarity is `1 - dist`, exactly as in the SQL.
* Note ids are Postgres `text`; SQL `n1.id < n2.id` is modelled as
  lexicographic order on the character list (`idLt`), which agrees with
  Lean's `String` order (`String.lt_iff_toList_lt`).
* SQL `ORDER BY` / Prisma `orderBy` is modelled as a stable sort
  (`List.insertionSort`) over table order; SQL guarantees the sort key only,
  and a stable sort over scan order is one legitimate execution.
* Database tables are `List Note`; Prisma `take n` is `List.take n`.
-/

/-- An embedding vector, as stored in the `vector` column. -/
abbrev Vec := List ℚ

/-- A row of the `notes` table (fields relevant to the retrieval core). -/
structure Note where
  id : String
  title : String
  content : String
  tags : List String
  source : String
  embedding : Option Vec
  createdAt : Nat
  updatedAt : Nat
deriving DecidableEq

/-- Lower-casing used for `mode: 'insensitive'` matching. -/
def lowerStr (s : String) : String := String.mk (s.data.map Char.toLower)

/-- `startsWithCh needle hay`: `needle` is an initial segment of `hay`. -/
def startsWithCh : List Char → List Char → Bool
  | [], _ => true
  | _ :: _, [] => false
  | a :: as, b :: bs => a == b && startsWithCh as bs

/-- `hasSubCh needle hay`: `needle` occurs contiguously inside `hay`. -/
def hasSubCh : List Char → List Char → Bool
  | needle, [] => startsWithCh needle []
  | needle, c :: rest' => startsWithCh needle (c :: rest') || hasSubCh needle rest'

/-- Prisma `{ contains: query, mode: 'insensitive' }`: case-insensitive
substring containment. -/
def containsCI (hay needle : String) : Bool :=
  hasSubCh (lowerStr needle).data (lowerStr hay).data

/-- The `OR` filter of the text-search fallback: the query occurs
case-insensitively in the title or in the content. -/
def matchesQuery (query : String) (n : Note) : Bool :=
  containsCI n.title query || containsCI n.content query

/-- Sort key of `orderBy: { updatedAt: 'desc' }`. -/
def byUpdatedDesc (a b : Note) : Prop := b.updatedAt ≤ a.updatedAt

instance : DecidableRel byUpdatedDesc :=
  fun a b => inferInstanceAs (Decidable (b.updatedAt ≤ a.updatedAt))

instance : IsTotal Note byUpdatedDesc := ⟨fun a b => le_total b.updatedAt a.updatedAt⟩

instance : IsTrans Note byUpdatedDesc := ⟨fun _ _ _ h1 h2 => le_trans h2 h1⟩

/-- The text-search fallback of `POST /api/search`: filter by the
case-insensitive OR condition, order by `updatedAt` descending, take `limit`. -/
def textSearch (query : String) (limit : Nat) (table : List Note) : List Note :=
  (List.insertionSort byUpdatedDesc (table.filter (matchesQuery query))).take limit

/-- Rows produced by the semantic-search SQL before ordering: every note with
a non-null embedding whose similarity `1 - (embedding <=> query)` exceeds the
threshold, paired with that similarity. -/
def semanticRows (dist : Vec → Vec → ℚ) (q : Vec) (threshold : ℚ)
    (table : List Note) : List (Note × ℚ) :=
  table.filterMap (fun n =>
    match n.embedding with
    | some v => if 1 - dist v q > threshold then some (n, 1 - dist v q) else none
    | none => none)

/-- Sort key of `ORDER BY embedding <=> query` (distance ascending), expressed
on the carried similarity: since similarity is `1 - distance`, ascending
distance is exactly descending similarity. -/
def bySimDesc (a b : Note × ℚ) : Prop := b.2 ≤ a.2

instance : DecidableRel bySimDesc :=
  fun a b => inferInstanceAs (Decidable (b.2 ≤ a.2))

instance : IsTotal (Note × ℚ) bySimDesc := ⟨fun a b => le_total b.2 a.2⟩

instance : IsTrans (Note × ℚ) bySimDesc := ⟨fun _ _ _ h1 h2 => le_trans h2 h1⟩

/-- The semantic branch of `POST /api/search`: the raw-SQL query filtering on
non-null embeddings and similarity above threshold, ordered by distance
ascending, limited to `limit` rows. -/
def semanticSearch (dist : Vec → Vec → ℚ) (q : Vec) (threshold : ℚ)
    (limit : Nat) (table : List Note) : List (Note × ℚ) :=
  (List.insertionSort bySimDesc (semanticRows dist q threshold table)).take limit

/-- One entry of the JSON `results` array returned by `POST /api/search`. -/
structure SearchHit where
  id : String
  title : String
  content : String
  tags : List String
  source : String
  createdAt : Nat
  updatedAt : Nat
  similarity : Option ℚ
deriving DecidableEq

/-- `results.map(r => ({ ...r, similarity: null }))` of the text fallback. -/
def toTextHit (n : Note) : SearchHit :=
  { id := n.id, title := n.title, content := n.content, tags := n.tags,
    source := n.source, createdAt := n.createdAt, updatedAt := n.updatedAt,
    similarity := none }

/-- A semantic result row with its computed similarity. -/
def toSemanticHit (p : Note × ℚ) : SearchHit :=
  { id := p.1.id, title := p.1.title, content := p.1.content, tags := p.1.tags,
    source := p.1.source, createdAt := p.1.createdAt, updatedAt := p.1.updatedAt,
    similarity := some p.2 }

/-- Outcome of the search route: a JSON body with results and a `searchType`
tag, or an HTTP error response with a status code. -/
inductive SearchOutcome where
  | ok (results : List SearchHit) (searchType : String)
  | err (status : Nat)
deriving DecidableEq

/-- `POST /api/search` after validation, as written in
`src/app/api/search/route.ts`:
* if `isEmbeddingEnabled()` is false, run the text fallback;
* otherwise `await generateEmbedding(query)`; when it is `null`, return the
  500 response `{ error: 'Failed to generate query embedding' }`;
* otherwise run the semantic SQL query.
`queryEmbedding` is the value `generateEmbedding` resolved to (only consulted
when `enabled` is true, matching the control flow of the handler). -/
def searchRoute (enabled : Bool) (queryEmbedding : Option Vec)
    (dist : Vec → Vec → ℚ) (query : String) (limit : Nat) (threshold : ℚ)
    (table : List Note) : SearchOutcome :=
  if ¬ enabled then
    .ok ((textSearch query limit table).map toTextHit) "text"
  else
    match queryEmbedding with
    | none => .err 500
    | some qv => .ok ((semanticSearch dist qv threshold limit table).map toSemanticHit) "semantic"

/-- The state of the module-level provider singleton resolved by
`getProvider()` in `src/lib/embeddings/index.ts`: either no provider
(`EMBEDDING_PROVIDER` unrecognized, `none`, or `openai` without a key),
or an active provider whose call can succeed with a vector or throw. -/
inductive ProviderState where
  | disabled
  | active (call : String → Except String Vec)

/-- `generateEmbedding` from `src/lib/embeddings/index.ts`: `null` when no
provider is configured; otherwise the provider call with any thrown error
absorbed into `null` by the `try/catch`. Totality of this function is the
model of "never propagates an exception to the caller". -/
def generateEmbedding : ProviderState → String → Option Vec
  | .disabled, _ => none
  | .active call, text =>
    match call text with
    | .ok v => some v
    | .error _ => none

/-- `OllamaProvider.truncateText`: keep the text if it fits the configured
character budget, otherwise its first `maxChars` characters
(JS `text.slice(0, maxChars)`, modelled on the character list). -/
def truncateText (maxChars : Nat) (text : String) : String :=
  if text.length ≤ maxChars then text else String.mk (text.data.take maxChars)

/-- The provider the process resolved: the local Ollama backend (with its
configured `maxChars` budget) or the cloud OpenAI backend. -/
inductive ActiveProvider where
  | ollama (maxChars : Nat)
  | openai

/-- The text each provider's `generateEmbedding` submits to its backend:
`OllamaProvider` sends `this.truncateText(text)` as the prompt;
`OpenAIProvider` sends `text` itself as the `input` (no truncation in
`src/lib/embeddings/openai.ts`). -/
def submittedText : ActiveProvider → String → String
  | .ollama maxChars, text => truncateText maxChars text
  | .openai, text => text

/-- Result of the notes `POST` handler: the stored row, the HTTP status and
the `embeddingGenerated` flag of the response body. -/
structure CreateOutcome where
  note : Note
  status : Nat
  embeddingGenerated : Bool
deriving DecidableEq

/-- Note creation after validation and secrets handling: when the embedding
result is non-null, insert the row with the vector; otherwise insert the row
without an embedding. Both branches return 201 with the stored note.
(The `sourceRef` column is not part of the modelled `Note` fields; no claim
mentions it.) -/
def createNote (embedResult : Option Vec) (newId title content : String)
    (tags : List String) (source : String) (now : Nat) : CreateOutcome :=
  match embedResult with
  | some v =>
    { note := { id := newId, title := title, content := content, tags := tags,
                source := source, embedding := some v,
                createdAt := now, updatedAt := now },
      status := 201, embeddingGenerated := true }
  | none =>
    { note := { id := newId, title := title, content := content, tags := tags,
                source := source, embedding := none,
                createdAt := now, updatedAt := now },
      status := 201, embeddingGenerated := false }

/-- The optional fields of the `PUT /api/notes/[id]` body (after zod
validation; `min(1)` makes present strings non-empty, so the JS fallback
`data.title || existing.title` coincides with `Option.getD`). -/
structure UpdateInput where
  title : Option String
  content : Option String
  tags : Option (List String)
deriving DecidableEq

/-- Result of the `PUT` handler: the stored row and the
`embeddingRegenerated` flag of the response body. -/
structure UpdateOutcome where
  note : Note
  embeddingRegenerated : Bool
deriving DecidableEq

/-- `PUT /api/notes/[id]` after validation, existence check and secrets
handling, as written in `src/app/api/notes/[id]/route.ts`:
* when title or content is supplied, embed `newTitle + "\n\n" + newContent`;
  if that yields a vector, the raw `UPDATE` writes title, content, tags and
  the new embedding;
* otherwise (nothing to re-embed, or `generateEmbedding` returned null) the
  Prisma update writes only the supplied fields and leaves the embedding
  column untouched.
`embedder` is the `generateEmbedding` closure; `now` models `NOW()` /
Prisma's automatic `updatedAt`. -/
def updateNote (embedder : String → Option Vec) (existing : Note)
    (data : UpdateInput) (now : Nat) : UpdateOutcome :=
  let newTitle := data.title.getD existing.title
  let newContent := data.content.getD existing.content
  if data.title.isSome || data.content.isSome then
    match embedder (newTitle ++ "\n\n" ++ newContent) with
    | some v =>
      { note := { existing with
                  title := newTitle
                  content := newContent
                  tags := data.tags.getD existing.tags
                  embedding := some v
                  updatedAt := now }
        embeddingRegenerated := true }
    | none =>
      { note := { existing with
                  title := newTitle
                  content := newContent
                  tags := data.tags.getD existing.tags
                  updatedAt := now }
        embeddingRegenerated := false }
  else
    { note := { existing with
                tags := data.tags.getD existing.tags
                updatedAt := now }
      embeddingRegenerated := false }

/-- SQL `n1.id < n2.id` on the `text` ids: lexicographic order of the
character lists. By `String.lt_iff_toList_lt` this is exactly Lean's
`String` order (see `idLt_iff_string_lt`). -/
def idLt (a b : String) : Prop := a.data < b.data

instance : DecidableRel idLt :=
  fun a b => inferInstanceAs (Decidable (a.data < b.data))

/-- `idLt` coincides with the order on `String`. -/
theorem idLt_iff_string_lt (a b : String) : idLt a b ↔ a < b := by
  rw [String.lt_iff_toList_lt]
  exact Iff.rfl

/-- A node of the graph response body. -/
structure GraphNode where
  id : String
  title : String
  tags : List String
  source : String
deriving DecidableEq

/-- An edge of the graph response body. -/
structure GraphEdge where
  source : String
  target : String
  similarity : ℚ
deriving DecidableEq

/-- `note => ({ id, title, tags, source })` of the graph route. -/
def toGraphNode (n : Note) : GraphNode :=
  { id := n.id, title := n.title, tags := n.tags, source := n.source }

/-- The candidate node list of `GET /api/graph`:
`findMany({ take: limit, orderBy: { updatedAt: 'desc' } })`. -/
def graphCandidates (limit : Nat) (table : List Note) : List Note :=
  (List.insertionSort byUpdatedDesc table).take limit

/-- One row of the pairwise-similarity `CROSS JOIN` for a given ordered pair
of rows: kept exactly when `n1.id < n2.id`, both embeddings are non-null and
`1 - (n1.embedding <=> n2.embedding) > threshold`. -/
def pairEdge (dist : Vec → Vec → ℚ) (threshold : ℚ) (n1 n2 : Note) :
    Option GraphEdge :=
  match n1.embedding, n2.embedding with
  | some v1, some v2 =>
    if idLt n1.id n2.id ∧ 1 - dist v1 v2 > threshold then
      some { source := n1.id, target := n2.id, similarity := 1 - dist v1 v2 }
    else none
  | _, _ => none

/-- All rows of the similarity `CROSS JOIN` over the whole `notes` table
(note: the SQL joins the full table, not the candidate list). -/
def graphPairs (dist : Vec → Vec → ℚ) (threshold : ℚ) (table : List Note) :
    List GraphEdge :=
  table.flatMap (fun n1 => table.filterMap (pairEdge dist threshold n1))

/-- Sort key of `ORDER BY similarity DESC` on the join rows. -/
def byEdgeSimDesc (a b : GraphEdge) : Prop := b.similarity ≤ a.similarity

instance : DecidableRel byEdgeSimDesc :=
  fun a b => inferInstanceAs (Decidable (b.similarity ≤ a.similarity))

instance : IsTotal GraphEdge byEdgeSimDesc := ⟨fun a b => le_total b.similarity a.similarity⟩

instance : IsTrans GraphEdge byEdgeSimDesc := ⟨fun _ _ _ h1 h2 => le_trans h2 h1⟩

/-- The edge list returned by the graph route: join rows ordered by
similarity descending, capped at 500. -/
def graphEdges (dist : Vec → Vec → ℚ) (threshold : ℚ) (table : List Note) :
    List GraphEdge :=
  (List.insertionSort byEdgeSimDesc (graphPairs dist threshold table)).take 500

/-- The JSON body of `GET /api/graph`. -/
structure GraphResult where
  nodes : List GraphNode
  edges : List GraphEdge
  totalNotes : Nat
  connectedNotes : Nat
  connections : Nat
  threshold : ℚ
deriving DecidableEq

/-- `GET /api/graph` after parameter parsing, as written in
`src/app/api/graph/route.ts`: candidate nodes from the recency-limited
`findMany`, edges from the similarity join over the whole table, node list
pruned to ids touched by some edge, plus the stats object. -/
def buildGraph (dist : Vec → Vec → ℚ) (threshold : ℚ) (limit : Nat)
    (table : List Note) : GraphResult :=
  let notes := graphCandidates limit table
  let edges := graphEdges dist threshold table
  let nodes := notes.map toGraphNode
  let connectedIds := edges.map (fun e => e.source) ++ edges.map (fun e => e.target)
  let connectedNodes := nodes.filter (fun n => connectedIds.contains n.id)
  { nodes := connectedNodes
    edges := edges
    totalNotes := notes.length
    connectedNotes := connectedNodes.length
    connections := edges.length
    threshold := threshold }

/-! ## Projection lemmas and concrete fixtures -/

/-- The edge list of the graph response. -/
theorem buildGraph_edges_eq (dist : Vec → Vec → ℚ) (threshold : ℚ)
    (limit : Nat) (table : List Note) :
    (buildGraph dist threshold limit table).edges = graphEdges dist threshold table := rfl

/-- The pruned node list of the graph response. -/
theorem buildGraph_nodes_eq (dist : Vec → Vec → ℚ) (threshold : ℚ)
    (limit : Nat) (table : List Note) :
    (buildGraph dist threshold limit table).nodes
      = ((graphCandidates limit table).map toGraphNode).filter
          (fun n => ((graphEdges dist threshold table).map (fun e => e.source)
              ++ (graphEdges dist threshold table).map (fun e => e.target)).contains n.id) := rfl

/-- Fixture note: oldest update, lexicographically least id, has an embedding. -/
def noteA : Note :=
  { id := "a", title := "alpha note", content := "first body", tags := [],
    source := "human", embedding := some [1], createdAt := 0, updatedAt := 1 }

/-- Fixture note: more recent than `noteA`, has an embedding. -/
def noteB : Note :=
  { id := "b", title := "beta note", content := "second body", tags := [],
    source := "human", embedding := some [1], createdAt := 0, updatedAt := 2 }

/-- Fixture note: most recent, stored without an embedding. -/
def noteC : Note :=
  { id := "c", title := "gamma note", content := "third body", tags := [],
    source := "human", embedding := none, createdAt := 0, updatedAt := 3 }

/-- A concrete distance function (constant zero) standing in for `<=>`. -/
def distZero : Vec → Vec → ℚ := fun _ _ => 0

/-! ## C1 — search when the query embedding fails -/

/-- C1 (counterexample): with embeddings enabled and the query embedding
failed (`generateEmbedding` returned null), `POST /api/search` does NOT fall
back to the lexical text search: it returns the 500 error response, even
though the text fallback would have produced a (non-empty) result list. -/
theorem search_embed_fail_no_fallback_cex :
    searchRoute true none distZero "alpha" 10 0 [noteA] = .err 500
    ∧ searchRoute true none distZero "alpha" 10 0 [noteA]
        ≠ .ok ((textSearch "alpha" 10 [noteA]).map toTextHit) "text"
    ∧ (textSearch "alpha" 10 [noteA]).map toTextHit = [toTextHit noteA] := by
  refine ⟨rfl, ?_, by decide⟩
  decide

/-- C1 (amended): for every search call in which embeddings are enabled but
embedding the query fails, the route returns the error response with HTTP
status 500 (`{ error: 'Failed to generate query embedding' }`) instead of
falling back to the lexical text search. -/
theorem search_embed_fail_returns_500 (dist : Vec → Vec → ℚ) (query : String)
    (limit : Nat) (threshold : ℚ) (table : List Note) :
    searchRoute true none dist query limit threshold table = .err 500 := rfl

/-! ## C3 — truncation guard per provider -/

/-- A text one character over the default 24000-character Ollama budget. -/
def overBudgetText : String := String.mk (List.replicate 24001 'a')

/-- C3 (counterexample): the cloud (OpenAI) provider submits the full text,
not its truncation — for a text exceeding the 24000-character budget, the
submitted input equals the input text and is strictly longer than the budget,
hence is not "the first N characters". -/
theorem openai_no_truncation_cex :
    submittedText ActiveProvider.openai overBudgetText = overBudgetText
    ∧ 24000 < overBudgetText.length
    ∧ submittedText ActiveProvider.openai overBudgetText
        ≠ truncateText 24000 overBudgetText := by
  have hlen : overBudgetText.length = 24001 := by
    show (List.replicate 24001 'a').length = 24001
    rw [List.length_replicate]
  have htr : (truncateText 24000 overBudgetText).length = 24000 := by
    rw [truncateText, if_neg (by omega)]
    show (overBudgetText.data.take 24000).length = 24000
    rw [List.length_take]
    show min 24000 (List.replicate 24001 'a').length = 24000
    rw [List.length_replicate]
    omega
  refine ⟨rfl, by omega, fun h => ?_⟩
  rw [show submittedText ActiveProvider.openai overBudgetText = overBudgetText from rfl] at h
  rw [h] at hlen
  omega

/-- C3 (amended): the truncation guard belongs to the local (Ollama) provider
only — when the text exceeds its configured character budget, Ollama submits
exactly the first `maxChars` characters, while the cloud (OpenAI) provider
always submits the text unchanged, however long it is. -/
theorem truncation_only_ollama (maxChars : Nat) (text : String)
    (h : maxChars < text.length) :
    submittedText (ActiveProvider.ollama maxChars) text
      = String.mk (text.data.take maxChars)
    ∧ (submittedText (ActiveProvider.ollama maxChars) text).length = maxChars
    ∧ submittedText ActiveProvider.openai text = text := by
  have hne : ¬ text.length ≤ maxChars := by omega
  refine ⟨?_, ?_, rfl⟩
  · show truncateText maxChars text = String.mk (text.data.take maxChars)
    rw [truncateText, if_neg hne]
  · show (truncateText maxChars text).length = maxChars
    rw [truncateText, if_neg hne]
    show (text.data.take maxChars).length = maxChars
    rw [List.length_take]
    have hd : text.data.length = text.length := rfl
    omega
/-- Witness for C3's amended theorem at `maxChars = 3`, `text = "abcde"`. -/
theorem truncation_only_ollama_witness :
    3 < ("abcde" : String).length
    ∧ submittedText (ActiveProvider.ollama 3) "abcde"
        = String.mk ("abcde".data.take 3) :=
  ⟨by decide, (truncation_only_ollama 3 "abcde" (by decide)).1⟩

/-! ## C5 — failure absorption in generateEmbedding, creation still succeeds -/

/-- C5: `generateEmbedding` yields null when the provider is disabled and when
the provider call throws any error (the function is total, so no exception
reaches the caller); and whenever it yields null, note creation still succeeds
(HTTP 201) storing the note without an embedding. -/
theorem generateEmbedding_absorbs (text msg : String)
    (call : String → Except String Vec) (hcall : call text = .error msg)
    (newId title content : String) (tags : List String) (src : String)
    (now : Nat) :
    generateEmbedding .disabled text = none
    ∧ generateEmbedding (.active call) text = none
    ∧ ∀ ps : ProviderState, generateEmbedding ps text = none →
        (createNote (generateEmbedding ps text) newId title content tags src now).status = 201
        ∧ (createNote (generateEmbedding ps text) newId title content tags src now).note.embedding = none
        ∧ (createNote (generateEmbedding ps text) newId title content tags src now).note.title = title
        ∧ (createNote (generateEmbedding ps text) newId title content tags src now).note.content = content
        ∧ (createNote (generateEmbedding ps text) newId title content tags src now).embeddingGenerated = false := by
  refine ⟨rfl, ?_, ?_⟩
  · show (match call text with
      | .ok v => some v
      | .error _ => none) = none
    rw [hcall]
  · intro ps hps
    rw [hps]
    exact ⟨rfl, rfl, rfl, rfl, rfl⟩

/-- Witness for C5 with a provider whose call always throws. -/
theorem generateEmbedding_absorbs_witness :
    generateEmbedding (.active fun _ => Except.error "boom") "some text" = none
    ∧ (createNote (generateEmbedding ProviderState.disabled "some text")
        "id1" "t" "c" [] "human" 7).status = 201 := by
  have h := generateEmbedding_absorbs "some text" "boom"
    (fun _ => Except.error "boom") rfl "id1" "t" "c" [] "human" 7
  exact ⟨h.2.1, (h.2.2 ProviderState.disabled rfl).1⟩

/-! ## C7 — embedding recomputed exactly when title or content is supplied -/

/-- C7: a tags-only update leaves the stored embedding unchanged (and reports
`embeddingRegenerated: false`); when title or content is supplied and the
regeneration succeeds, the new vector is stored (and the flag is true). -/
theorem update_embedding_frame (embedder : String → Option Vec)
    (existing : Note) (data : UpdateInput) (now : Nat) :
    (data.title = none ∧ data.content = none →
      (updateNote embedder existing data now).note.embedding = existing.embedding
      ∧ (updateNote embedder existing data now).embeddingRegenerated = false)
    ∧ (∀ v, (data.title.isSome || data.content.isSome) = true →
        embedder ((data.title.getD existing.title) ++ "\n\n"
            ++ (data.content.getD existing.content)) = some v →
        (updateNote embedder existing data now).note.embedding = some v
        ∧ (updateNote embedder existing data now).embeddingRegenerated = true) := by
  constructor
  · rintro ⟨h1, h2⟩
    simp [updateNote, h1, h2]
  · intro v hsup hemb
    simp [updateNote, hsup, hemb]

/-- Witness for C7: a tags-only update keeps `noteA`'s embedding; a
title-carrying update with a succeeding embedder stores the new vector. -/
theorem update_embedding_frame_witness :
    (updateNote (fun _ => some [2]) noteA ⟨none, none, some ["t"]⟩ 5).note.embedding
        = noteA.embedding
    ∧ (updateNote (fun _ => some [2]) noteA ⟨some "new title", none, none⟩ 5).note.embedding
        = some [2] := by
  constructor
  · exact ((update_embedding_frame (fun _ => some [2]) noteA
      ⟨none, none, some ["t"]⟩ 5).1 ⟨rfl, rfl⟩).1
  · exact ((update_embedding_frame (fun _ => some [2]) noteA
      ⟨some "new title", none, none⟩ 5).2 [2] rfl rfl).1

/-! ## C10 — update succeeds with stale embedding when regeneration fails -/

/-- C10: when title or content is supplied but `generateEmbedding` returns
null, the update of title, content and tags still succeeds while the
previously stored embedding is retained unchanged (so a stale vector, if one
was stored, stays available to semantic search and the graph). -/
theorem update_embed_fail_keeps_stale (embedder : String → Option Vec)
    (existing : Note) (data : UpdateInput) (now : Nat)
    (hsup : (data.title.isSome || data.content.isSome) = true)
    (hfail : embedder ((data.title.getD existing.title) ++ "\n\n"
        ++ (data.content.getD existing.content)) = none) :
    (updateNote embedder existing data now).note.title = data.title.getD existing.title
    ∧ (updateNote embedder existing data now).note.content = data.content.getD existing.content
    ∧ (updateNote embedder existing data now).note.tags = data.tags.getD existing.tags
    ∧ (updateNote embedder existing data now).note.embedding = existing.embedding
    ∧ (updateNote embedder existing data now).embeddingRegenerated = false := by
  simp [updateNote, hsup, hfail]

/-- Witness for C10: a content edit under a failing embedder keeps `noteA`'s
old vector while the content is updated. -/
theorem update_embed_fail_keeps_stale_witness :
    (updateNote (fun _ => none) noteA ⟨none, some "edited body", none⟩ 5).note.content
        = "edited body"
    ∧ (updateNote (fun _ => none) noteA ⟨none, some "edited body", none⟩ 5).note.embedding
        = some [1] := by
  have h := update_embed_fail_keeps_stale (fun _ => none) noteA
    ⟨none, some "edited body", none⟩ 5 rfl rfl
  exact ⟨h.2.1, h.2.2.2.1⟩

/-! ## C6 — search while embeddings are disabled -/

/-- C6: with embeddings disabled, the route returns the text fallback:
results are exactly the case-insensitive title/content substring matches
(sound, and complete whenever the limit did not cut the list), ordered by
most-recently-updated, truncated to `limit`, with `similarity = null` on
every returned result. -/
theorem search_disabled_spec (queryEmbedding : Option Vec)
    (dist : Vec → Vec → ℚ) (query : String) (limit : Nat) (threshold : ℚ)
    (table : List Note) :
    searchRoute false queryEmbedding dist query limit threshold table
      = .ok ((textSearch query limit table).map toTextHit) "text"
    ∧ (∀ h ∈ (textSearch query limit table).map toTextHit, h.similarity = none)
    ∧ (∀ n ∈ textSearch query limit table, n ∈ table ∧ matchesQuery query n = true)
    ∧ List.Sorted byUpdatedDesc (textSearch query limit table)
    ∧ (textSearch query limit table).length ≤ limit
    ∧ (∀ n ∈ table, matchesQuery query n = true →
        (textSearch query limit table).length < limit →
        n ∈ textSearch query limit table) := by
  refine ⟨rfl, ?_, ?_, ?_, ?_, ?_⟩
  · intro h hm
    rcases List.mem_map.mp hm with ⟨n, _, rfl⟩
    rfl
  · intro n hn
    have hs : n ∈ List.insertionSort byUpdatedDesc (table.filter (matchesQuery query)) :=
      List.mem_of_mem_take hn
    have hf : n ∈ table.filter (matchesQuery query) :=
      (List.perm_insertionSort byUpdatedDesc _).mem_iff.mp hs
    exact List.mem_filter.mp hf
  · exact List.Pairwise.sublist (List.take_sublist _ _)
      (List.sorted_insertionSort byUpdatedDesc _)
  · exact List.length_take_le _ _
  · intro n hn hm hlen
    have hfull : textSearch query limit table
        = List.insertionSort byUpdatedDesc (table.filter (matchesQuery query)) := by
      by_cases hle : (List.insertionSort byUpdatedDesc (table.filter (matchesQuery query))).length ≤ limit
      · exact List.take_of_length_le hle
      · exfalso
        rw [textSearch, List.length_take] at hlen
        omega
    rw [hfull]
    exact (List.perm_insertionSort byUpdatedDesc _).mem_iff.mpr
      (List.mem_filter.mpr ⟨hn, hm⟩)

/-- Witness for C6 on a concrete two-note table: `noteA` matches the query
"ALPHA" case-insensitively and is returned, with `similarity = none`. -/
theorem search_disabled_spec_witness :
    noteA ∈ textSearch "ALPHA" 10 [noteA, noteB]
    ∧ (toTextHit noteA).similarity = none := by
  have h := search_disabled_spec none distZero "ALPHA" 10 0 [noteA, noteB]
  refine ⟨h.2.2.2.2.2 noteA (by decide) (by decide) (by decide), ?_⟩
  have hm : noteA ∈ textSearch "ALPHA" 10 [noteA, noteB] := by decide
  exact h.2.1 (toTextHit noteA) (List.mem_map.mpr ⟨noteA, hm, rfl⟩)

/-! ## C4 — semantic search result properties -/

/-- C4 (counterexample): the semantic SQL orders by distance only, with no
recency tie-break. With two notes of identical embeddings (equal similarity 1)
where the earlier table row `noteA` is the LESS recently updated, the result
keeps table order `[noteA, noteB]` — the tie is not broken by most-recent
update, which would require `noteB` first. -/
theorem semantic_tie_order_cex :
    semanticSearch distZero [1] 0 10 [noteA, noteB] = [(noteA, 1), (noteB, 1)]
    ∧ noteA.updatedAt < noteB.updatedAt := by
  constructor
  · norm_num [semanticSearch, semanticRows, distZero, noteA, noteB,
      List.insertionSort, List.orderedInsert, bySimDesc]
  · decide

/-- C4 (amended): every semantic result comes from a table row with a
non-null stored embedding, carries similarity `1 - dist` strictly above the
threshold, the list is ordered descending by similarity (order among equal
similarities is not specified by the query and follows table order), and at
most `limit` results are returned. -/
theorem semanticSearch_spec (dist : Vec → Vec → ℚ) (q : Vec) (threshold : ℚ)
    (limit : Nat) (table : List Note) :
    (∀ p ∈ semanticSearch dist q threshold limit table,
        p.1 ∈ table
        ∧ (∃ v, p.1.embedding = some v ∧ p.2 = 1 - dist v q)
        ∧ p.2 > threshold)
    ∧ List.Sorted bySimDesc (semanticSearch dist q threshold limit table)
    ∧ (semanticSearch dist q threshold limit table).length ≤ limit := by
  refine ⟨?_, ?_, ?_⟩
  · intro p hp
    have hs : p ∈ List.insertionSort bySimDesc (semanticRows dist q threshold table) :=
      List.mem_of_mem_take hp
    have hr : p ∈ semanticRows dist q threshold table :=
      (List.perm_insertionSort bySimDesc _).mem_iff.mp hs
    rcases List.mem_filterMap.mp hr with ⟨n, hn, hf⟩
    rcases hemb : n.embedding with _ | v
    · rw [hemb] at hf
      simp at hf
    · rw [hemb] at hf
      have hf' : (if 1 - dist v q > threshold then some (n, 1 - dist v q) else none)
          = some p := hf
      by_cases hth : 1 - dist v q > threshold
      · rw [if_pos hth] at hf'
        cases hf'
        exact ⟨hn, ⟨v, hemb, rfl⟩, hth⟩
      · rw [if_neg hth] at hf'
        cases hf'
  · exact List.Pairwise.sublist (List.take_sublist _ _)
      (List.sorted_insertionSort bySimDesc _)
  · exact List.length_take_le _ _

/-- Witness for C4's amended theorem: on the one-note table `[noteA]` the
result is `[(noteA, 1)]`, whose entry satisfies the membership hypothesis and
has similarity above the threshold 0. -/
theorem semanticSearch_spec_witness :
    (noteA, (1:ℚ)) ∈ semanticSearch distZero [1] 0 10 [noteA]
    ∧ (noteA, (1:ℚ)).2 > 0 := by
  have heval : semanticSearch distZero [1] 0 10 [noteA] = [(noteA, 1)] := by
    norm_num [semanticSearch, semanticRows, distZero, noteA,
      List.insertionSort, List.orderedInsert, bySimDesc]
  have hm : (noteA, (1:ℚ)) ∈ semanticSearch distZero [1] 0 10 [noteA] := by
    rw [heval]
    exact List.mem_singleton.mpr rfl
  exact ⟨hm, ((semanticSearch_spec distZero [1] 0 10 [noteA]).1 _ hm).2.2⟩

/-! ## C2 — which notes the graph joins over -/

/-- Destructuring of a kept `CROSS JOIN` row: it records the two row ids in
order, both non-null embeddings, and a similarity above the threshold. -/
theorem pairEdge_eq_some {dist : Vec → Vec → ℚ} {threshold : ℚ}
    {n1 n2 : Note} {e : GraphEdge}
    (h : pairEdge dist threshold n1 n2 = some e) :
    ∃ v1 v2, n1.embedding = some v1 ∧ n2.embedding = some v2
      ∧ e.source = n1.id ∧ e.target = n2.id ∧ idLt n1.id n2.id
      ∧ e.similarity = 1 - dist v1 v2 ∧ e.similarity > threshold := by
  rcases h1 : n1.embedding with _ | v1 <;> rcases h2 : n2.embedding with _ | v2 <;>
    rw [pairEdge, h1, h2] at h
  · exact absurd h (by simp)
  · exact absurd h (by simp)
  · exact absurd h (by simp)
  · have h' : (if idLt n1.id n2.id ∧ 1 - dist v1 v2 > threshold then
        some { source := n1.id, target := n2.id, similarity := 1 - dist v1 v2 }
        else none) = some e := h
    by_cases hc : idLt n1.id n2.id ∧ 1 - dist v1 v2 > threshold
    · rw [if_pos hc] at h'
      cases h'
      exact ⟨v1, v2, rfl, rfl, rfl, rfl, hc.1, rfl, hc.2⟩
    · rw [if_neg hc] at h'
      cases h'

/-- An edge of the join, traced back to its two table rows. -/
theorem graphEdges_mem_spec {dist : Vec → Vec → ℚ} {threshold : ℚ}
    {table : List Note} {e : GraphEdge}
    (he : e ∈ graphEdges dist threshold table) :
    ∃ n1, n1 ∈ table ∧ ∃ n2, n2 ∈ table ∧ ∃ v1 v2,
      n1.embedding = some v1 ∧ n2.embedding = some v2
      ∧ e.source = n1.id ∧ e.target = n2.id ∧ idLt n1.id n2.id
      ∧ e.similarity = 1 - dist v1 v2 ∧ e.similarity > threshold := by
  have hs : e ∈ List.insertionSort byEdgeSimDesc (graphPairs dist threshold table) :=
    List.mem_of_mem_take he
  have hp : e ∈ graphPairs dist threshold table :=
    (List.perm_insertionSort byEdgeSimDesc _).mem_iff.mp hs
  rcases List.mem_flatMap.mp hp with ⟨n1, hn1, hin⟩
  rcases List.mem_filterMap.mp hin with ⟨n2, hn2, hpe⟩
  exact ⟨n1, hn1, n2, hn2, pairEdge_eq_some hpe⟩

/-- C2 (counterexample): with `nodeLimit = 1` the candidate node set is just
the most recent note `noteC` (id "c"), yet the returned edge joins `noteA`
and `noteB` — the pairwise similarity is computed over the whole store, so a
returned edge can connect notes outside the candidate set. -/
theorem graph_edge_outside_candidates_cex :
    (buildGraph distZero 0 1 [noteA, noteB, noteC]).edges
      = [{ source := "a", target := "b", similarity := 1 }]
    ∧ (graphCandidates 1 [noteA, noteB, noteC]).map (fun n => n.id) = ["c"]
    ∧ "a" ∉ (graphCandidates 1 [noteA, noteB, noteC]).map (fun n => n.id) := by
  refine ⟨?_, by decide, by decide⟩
  rw [buildGraph_edges_eq]
  norm_num +decide [graphEdges, graphPairs, pairEdge, idLt, distZero, noteA, noteB, noteC,
    List.insertionSort, List.orderedInsert, byEdgeSimDesc, List.flatMap, List.filterMap_cons]

/-- C2 (amended): pairwise similarity is computed over the whole notes table,
not only the candidate node set: every returned edge connects two notes of
the store that both have non-null embeddings and similarity above the
threshold (its endpoints need not belong to the up-to-`nodeLimit`
most-recently-updated candidate set). -/
theorem buildGraph_edges_from_store (dist : Vec → Vec → ℚ) (threshold : ℚ)
    (limit : Nat) (table : List Note) :
    ∀ e ∈ (buildGraph dist threshold limit table).edges,
      ∃ n1, n1 ∈ table ∧ ∃ n2, n2 ∈ table ∧ ∃ v1 v2,
        n1.embedding = some v1 ∧ n2.embedding = some v2
        ∧ e.source = n1.id ∧ e.target = n2.id ∧ idLt n1.id n2.id
        ∧ e.similarity = 1 - dist v1 v2 ∧ e.similarity > threshold := by
  intro e he
  rw [buildGraph_edges_eq] at he
  exact graphEdges_mem_spec he

/-- Witness for C2's amended theorem on the three-note fixture table. -/
theorem buildGraph_edges_from_store_witness :
    ({ source := "a", target := "b", similarity := 1 } : GraphEdge)
        ∈ (buildGraph distZero 0 1 [noteA, noteB, noteC]).edges
    ∧ ∃ n1, n1 ∈ [noteA, noteB, noteC] ∧ ∃ n2, n2 ∈ [noteA, noteB, noteC] ∧ ∃ v1 v2,
        n1.embedding = some v1 ∧ n2.embedding = some v2
        ∧ ({ source := "a", target := "b", similarity := 1 } : GraphEdge).source = n1.id
        ∧ ({ source := "a", target := "b", similarity := 1 } : GraphEdge).target = n2.id
        ∧ idLt n1.id n2.id
        ∧ ({ source := "a", target := "b", similarity := 1 } : GraphEdge).similarity
            = 1 - distZero v1 v2
        ∧ ({ source := "a", target := "b", similarity := 1 } : GraphEdge).similarity > 0 := by
  have hm : ({ source := "a", target := "b", similarity := 1 } : GraphEdge)
      ∈ (buildGraph distZero 0 1 [noteA, noteB, noteC]).edges := by
    rw [buildGraph_edges_eq]
    have heval : graphEdges distZero 0 [noteA, noteB, noteC]
        = [{ source := "a", target := "b", similarity := 1 }] := by
      norm_num +decide [graphEdges, graphPairs, pairEdge, idLt, distZero, noteA, noteB, noteC,
        List.insertionSort, List.orderedInsert, byEdgeSimDesc, List.flatMap, List.filterMap_cons]
    rw [heval]
    exact List.mem_singleton.mpr rfl
  exact ⟨hm, buildGraph_edges_from_store distZero 0 1 [noteA, noteB, noteC] _ hm⟩

/-! ## C9 — returned nodes are connected; stats count -/

/-- C9: every node of the graph response is an endpoint of at least one
returned edge (the node list is pruned to ids touched by some edge), and
`stats.connectedNotes` equals the number of returned nodes. -/
theorem graph_nodes_connected (dist : Vec → Vec → ℚ) (threshold : ℚ)
    (limit : Nat) (table : List Note) :
    (∀ n ∈ (buildGraph dist threshold limit table).nodes,
       ∃ e ∈ (buildGraph dist threshold limit table).edges,
         n.id = e.source ∨ n.id = e.target)
    ∧ (buildGraph dist threshold limit table).connectedNotes
        = (buildGraph dist threshold limit table).nodes.length := by
  constructor
  · intro n hn
    rw [buildGraph_nodes_eq] at hn
    rcases List.mem_filter.mp hn with ⟨_, hc⟩
    have hmem : n.id ∈ (graphEdges dist threshold table).map (fun e => e.source)
        ++ (graphEdges dist threshold table).map (fun e => e.target) := by
      simpa using hc
    rcases List.mem_append.mp hmem with hsrc | htgt
    · rcases List.mem_map.mp hsrc with ⟨e, he, heq⟩
      exact ⟨e, by rw [buildGraph_edges_eq]; exact he, Or.inl heq.symm⟩
    · rcases List.mem_map.mp htgt with ⟨e, he, heq⟩
      exact ⟨e, by rw [buildGraph_edges_eq]; exact he, Or.inr heq.symm⟩
  · rfl

/-- Witness for C9: on the two-note fixture table, the returned node built
from `noteA` touches a returned edge. -/
theorem graph_nodes_connected_witness :
    ∃ e ∈ (buildGraph distZero 0 10 [noteA, noteB]).edges,
      (toGraphNode noteA).id = e.source ∨ (toGraphNode noteA).id = e.target := by
  have h := graph_nodes_connected distZero 0 10 [noteA, noteB]
  refine h.1 (toGraphNode noteA) ?_
  rw [buildGraph_nodes_eq]
  norm_num +decide [graphCandidates, graphEdges, graphPairs, pairEdge, idLt, distZero,
    noteA, noteB, toGraphNode, List.insertionSort, List.orderedInsert, byEdgeSimDesc,
    byUpdatedDesc, List.flatMap, List.filterMap_cons]

/-! ## C8 — one undirected edge per pair, oriented by id -/

/-- Join rows have pairwise-distinct (source, target) keys when the table's
ids are distinct: rows of one outer note share its source and differ in
target; rows of different outer notes differ in source. -/
theorem graphPairs_pairwise (dist : Vec → Vec → ℚ) (threshold : ℚ)
    {table : List Note} (hnd : (table.map (fun n => n.id)).Nodup) :
    List.Pairwise (fun e1 e2 => e1.source ≠ e2.source ∨ e1.target ≠ e2.target)
      (graphPairs dist threshold table) := by
  have hids : table.Pairwise (fun a b => a.id ≠ b.id) := List.pairwise_map.mp hnd
  rw [graphPairs, List.pairwise_flatMap]
  constructor
  · intro n1 _
    rw [List.pairwise_filterMap]
    refine hids.imp ?_
    intro n2 n2' hne e he e' he'
    rcases pairEdge_eq_some (Option.mem_def.mp he) with ⟨_, _, _, _, _, ht, _, _, _⟩
    rcases pairEdge_eq_some (Option.mem_def.mp he') with ⟨_, _, _, _, _, ht', _, _, _⟩
    exact Or.inr (by rw [ht, ht']; exact hne)
  · refine hids.imp ?_
    intro n1 n1' hne e he e' he'
    rcases List.mem_filterMap.mp he with ⟨n2, _, hpe⟩
    rcases List.mem_filterMap.mp he' with ⟨n2', _, hpe'⟩
    rcases pairEdge_eq_some hpe with ⟨_, _, _, _, hs, _, _, _, _⟩
    rcases pairEdge_eq_some hpe' with ⟨_, _, _, _, hs', _, _, _, _⟩
    exact Or.inl (by rw [hs, hs']; exact hne)

/-- The key-distinctness survives the similarity sort and the 500-edge cap. -/
theorem graphEdges_pairwise (dist : Vec → Vec → ℚ) (threshold : ℚ)
    {table : List Note} (hnd : (table.map (fun n => n.id)).Nodup) :
    List.Pairwise (fun e1 e2 => e1.source ≠ e2.source ∨ e1.target ≠ e2.target)
      (graphEdges dist threshold table) := by
  have hsymm : ∀ {x y : GraphEdge},
      (x.source ≠ y.source ∨ x.target ≠ y.target) →
      (y.source ≠ x.source ∨ y.target ≠ x.target) :=
    fun h => h.imp Ne.symm Ne.symm
  have hs := ((List.perm_insertionSort byEdgeSimDesc
      (graphPairs dist threshold table)).pairwise_iff hsymm).mpr
    (graphPairs_pairwise dist threshold hnd)
  exact List.Pairwise.sublist (List.take_sublist _ _) hs

/-- C8: when the table's ids are distinct (the database primary key), every
returned edge has `source < target`, the edge list never repeats an ordered
(source, target) key, and no unordered pair occurs in both orientations. -/
theorem graph_edges_unordered_unique (dist : Vec → Vec → ℚ) (threshold : ℚ)
    (limit : Nat) (table : List Note)
    (hnd : (table.map (fun n => n.id)).Nodup) :
    (∀ e ∈ (buildGraph dist threshold limit table).edges, idLt e.source e.target)
    ∧ List.Pairwise (fun e1 e2 => e1.source ≠ e2.source ∨ e1.target ≠ e2.target)
        (buildGraph dist threshold limit table).edges
    ∧ (∀ e1 ∈ (buildGraph dist threshold limit table).edges,
       ∀ e2 ∈ (buildGraph dist threshold limit table).edges,
         ¬ (e1.source = e2.target ∧ e1.target = e2.source)) := by
  have hall : ∀ e ∈ (buildGraph dist threshold limit table).edges,
      idLt e.source e.target := by
    intro e he
    rw [buildGraph_edges_eq] at he
    rcases graphEdges_mem_spec he with ⟨n1, _, n2, _, v1, v2, _, _, hsrc, htgt, hlt, _, _⟩
    rw [hsrc, htgt]
    exact hlt
  refine ⟨hall, ?_, ?_⟩
  · rw [buildGraph_edges_eq]
    exact graphEdges_pairwise dist threshold hnd
  · rintro e1 h1 e2 h2 ⟨hst, hts⟩
    have l1 : e1.source.data < e1.target.data := hall e1 h1
    have l2 : e2.source.data < e2.target.data := hall e2 h2
    rw [hst, hts] at l1
    exact absurd l1 (lt_asymm l2)

/-- Witness for C8 on the two-note fixture table with distinct ids. -/
theorem graph_edges_unordered_unique_witness :
    ([noteA, noteB].map (fun n => n.id)).Nodup
    ∧ List.Pairwise (fun e1 e2 => e1.source ≠ e2.source ∨ e1.target ≠ e2.target)
        (buildGraph distZero 0 10 [noteA, noteB]).edges :=
  ⟨by decide, (graph_edges_unordered_unique distZero 0 10 [noteA, noteB] (by decide)).2.1⟩
